import Mathlib

/-!
Verification of the BMAD-GUI process session manager and SSE broadcast hub.

The definitions below are a shallow embedding of the Python source:
  - `broadcast_sse_event` embeds `src/src/handlers/sse.py` (subscriber fan-out);
  - `ClaudeCodeManager.start / stop / send_command / get_status`,
    `read_pty_output` and `execute_stateless` embed
    `src/_internal/src/claude_manager.py`;
  - `ansi_escape_sub` embeds the regular expression
    used by the interactive reader to strip terminal escape
    sequences: ESC followed by either a single byte in 0x40..0x5A or
    0x5C..0x5F, or a CSI sequence (open bracket, parameter bytes 0x30..0x3F,
    intermediate bytes 0x20..0x2F, one final byte 0x40..0x7E), or an OSC
    sequence (close bracket, any non-BEL bytes, BEL).

Side effects (broadcast calls, process spawns, pty writes) are made explicit
as an `Act` trace returned next to the new state, so that ordering claims
(for example command_sent is broadcast before the pty write) are statable.
-/

/-- Process state enumeration, from `ProcessStatus` in claude_manager.py. -/
inductive ProcessStatus where
  | stopped
  | starting
  | running
  | error
deriving DecidableEq, Repr

/-- The `.value` string of each `ProcessStatus` member. -/
def ProcessStatus.value : ProcessStatus → String
  | .stopped => "stopped"
  | .starting => "starting"
  | .running => "running"
  | .error => "error"

/-- Payload shapes of the dictionaries passed to `_broadcast` in
claude_manager.py: status-only, status with pid, status with message,
a sent command, and an output record (event_type, content, timestamp,
optional exit_code). -/
inductive Payload where
  | statusOnly (status : String)
  | statusPid (status : String) (pid : Nat)
  | statusMsg (status : String) (message : String)
  | commandData (command : String)
  | outputData (eventType : String) (content : String) (timestamp : Nat)
      (exitCode : Option Int)
deriving DecidableEq, Repr

/-- Observable side effects of the manager, in program order. -/
inductive Act where
  | broadcast (eventType : String) (data : Payload)
  | spawnPty (path : String)
  | versionProbe
  | ptyWrite (text : String)
  | spawnStatelessChild (command : String)
  | cancelReadTask
  | closePty
deriving DecidableEq, Repr

/-- The mutable fields of a `ClaudeCodeManager` instance, from `__init__`:
project_path, status, pid, started_at, error_message, _pty_process (modelled
as an optional handle id) and _read_task (modelled as an active flag). -/
structure ClaudeCodeManager where
  project_path : String
  status : ProcessStatus
  pid : Option Nat
  started_at : Option Nat
  error_message : Option String
  pty_process : Option Nat
  read_task : Bool
deriving DecidableEq, Repr

/-- A freshly constructed manager, from `ClaudeCodeManager.__init__`. -/
def initial_manager (path : String) : ClaudeCodeManager :=
  { project_path := path
    status := ProcessStatus.stopped
    pid := none
    started_at := none
    error_message := none
    pty_process := none
    read_task := false }

/-- The fixed message stored by the `except FileNotFoundError` branch of
`start`. -/
def claude_not_found_message : String :=
  "未找到 claude 命令，请确保 Claude Code CLI 已安装"

/-- Environment outcome of one `start` call: the winpty spawn succeeds
(returning a pid and a fresh handle), the spawn raises (message of the
exception), the `claude --version` probe succeeds, or the probe fails
(raising `FileNotFoundError`). -/
inductive StartEnv where
  | interactiveOk (pid : Nat) (handle : Nat)
  | interactiveFail (msg : String)
  | statelessOk (version : String)
  | statelessNotFound
deriving DecidableEq, Repr

/-- The error message `start` records for a failing environment, if any. -/
def StartEnv.errorResult : StartEnv → Option String
  | .interactiveFail msg => some msg
  | .statelessNotFound => some claude_not_found_message
  | _ => none

/-- Embedding of `ClaudeCodeManager.start`: early return when already
running; otherwise set status to starting, broadcast the starting event,
then follow the interactive (winpty spawn) or stateless (version probe)
path; on success record started_at, set status running, clear
error_message and broadcast the running event with the pid; on failure set
status error, record error_message and broadcast the error event. -/
def ClaudeCodeManager.start (self : ClaudeCodeManager) (env : StartEnv)
    (now : Nat) : Bool × ClaudeCodeManager × List Act :=
  if self.status = ProcessStatus.running then (true, self, [])
  else
    let s1 := { self with status := ProcessStatus.starting }
    let bcastStarting :=
      Act.broadcast "claude_status" (Payload.statusOnly "starting")
    match env with
    | StartEnv.interactiveOk pid handle =>
        let s2 := { s1 with
          pty_process := some handle
          pid := some pid
          read_task := true
          started_at := some now
          status := ProcessStatus.running
          error_message := none }
        (true, s2,
          [bcastStarting, Act.spawnPty self.project_path,
           Act.broadcast "claude_status" (Payload.statusPid "running" pid)])
    | StartEnv.interactiveFail msg =>
        let s2 := { s1 with
          status := ProcessStatus.error
          error_message := some msg }
        (false, s2,
          [bcastStarting, Act.spawnPty self.project_path,
           Act.broadcast "claude_status" (Payload.statusMsg "error" msg)])
    | StartEnv.statelessOk _version =>
        let s2 := { s1 with
          pid := some 1
          started_at := some now
          status := ProcessStatus.running
          error_message := none }
        (true, s2,
          [bcastStarting, Act.versionProbe,
           Act.broadcast "claude_status" (Payload.statusPid "running" 1)])
    | StartEnv.statelessNotFound =>
        let s2 := { s1 with
          status := ProcessStatus.error
          error_message := some claude_not_found_message }
        (false, s2,
          [bcastStarting, Act.versionProbe,
           Act.broadcast "claude_status"
             (Payload.statusMsg "error" claude_not_found_message)])

/-- Embedding of `ClaudeCodeManager.stop`: cancel the read task if active,
close the pty handle if present, unconditionally set status stopped and
pid none, broadcast the stopped event, return True. -/
def ClaudeCodeManager.stop (self : ClaudeCodeManager) :
    Bool × ClaudeCodeManager × List Act :=
  let a1 : List Act := if self.read_task then [Act.cancelReadTask] else []
  let a2 : List Act :=
    if self.pty_process.isSome then [Act.closePty] else []
  let s2 := { self with
    read_task := false
    pty_process := none
    status := ProcessStatus.stopped
    pid := none }
  (true, s2,
    a1 ++ a2 ++
      [Act.broadcast "claude_status" (Payload.statusOnly "stopped")])

/-- The dictionary returned by `ClaudeCodeManager.get_status`. -/
structure StatusReport where
  status : String
  pid : Option Nat
  started_at : Option Nat
  error_message : Option String
deriving DecidableEq, Repr

/-- Embedding of `ClaudeCodeManager.get_status`. -/
def ClaudeCodeManager.get_status (self : ClaudeCodeManager) : StatusReport :=
  { status := self.status.value
    pid := self.pid
    started_at := self.started_at
    error_message := self.error_message }

/-- Embedding of `ClaudeCodeManager.send_command`: failure without side
effect when not running; otherwise broadcast the command_sent event and
then either write command plus newline to the pty (the boolean `writeOk`
says whether that write raised) or schedule a stateless one-shot child. -/
def ClaudeCodeManager.send_command (self : ClaudeCodeManager)
    (command : String) (writeOk : Bool) :
    Bool × ClaudeCodeManager × List Act :=
  if self.status ≠ ProcessStatus.running then (false, self, [])
  else
    let sent := Act.broadcast "command_sent" (Payload.commandData command)
    match self.pty_process with
    | some _ => (writeOk, self, [sent, Act.ptyWrite (command ++ "\n")])
    | none => (true, self, [sent, Act.spawnStatelessChild command])

/-- Parameter byte of a CSI sequence, range 0x30..0x3F. -/
def isCsiParam (c : Char) : Bool := 48 ≤ c.toNat && c.toNat ≤ 63

/-- Intermediate byte of a CSI sequence, range 0x20..0x2F. -/
def isCsiIntermediate (c : Char) : Bool := 32 ≤ c.toNat && c.toNat ≤ 47

/-- Final byte of a CSI sequence, range 0x40..0x7E. -/
def isCsiFinal (c : Char) : Bool := 64 ≤ c.toNat && c.toNat ≤ 126

/-- A byte matched by the first alternative of the source regex directly
after ESC: ranges 0x40..0x5A and 0x5C..0x5F. -/
def isEscSingle (c : Char) : Bool :=
  (64 ≤ c.toNat && c.toNat ≤ 90) || (92 ≤ c.toNat && c.toNat ≤ 95)

/-- Try to match the part of the source regex that follows ESC against the
given characters; on a match return the characters after the matched
sequence. Alternatives are tried in the order of the source regex. The
three character classes of the CSI alternative cover disjoint ranges, so
greedy scanning without backtracking is equivalent to the regex. The OSC
alternative is kept for faithfulness although the close bracket 0x5D is
already matched by the first alternative. -/
def matchEscapeTail : List Char → Option (List Char)
  | [] => none
  | c :: rest =>
    if isEscSingle c then some rest
    else if c.toNat = 91 then
      let afterParams := rest.dropWhile isCsiParam
      let afterInter := afterParams.dropWhile isCsiIntermediate
      match afterInter with
      | [] => none
      | f :: rest2 => if isCsiFinal f then some rest2 else none
    else if c.toNat = 93 then
      let body := rest.dropWhile (fun d => d.toNat ≠ 7)
      match body with
      | [] => none
      | _ :: rest2 => some rest2
    else none

/-- Fuelled scan of `ansi_escape.sub`: at each position, if the character
is ESC and the tail matches the escape pattern, drop the match and carry
on after it; otherwise keep the character. One unit of fuel per removed
sequence or kept character suffices, so fuel equal to the input length is
enough. -/
def ansiSubAux : Nat → List Char → List Char
  | 0, l => l
  | _ + 1, [] => []
  | fuel + 1, c :: rest =>
    if c.toNat = 27 then
      match matchEscapeTail rest with
      | some rest2 => ansiSubAux fuel rest2
      | none => c :: ansiSubAux fuel rest
    else c :: ansiSubAux fuel rest

/-- Embedding of `ansi_escape.sub` applied by `_read_pty_output` to each
raw chunk: the pure sanitizer removing terminal escape sequences. -/
def ansi_escape_sub (s : String) : String :=
  String.mk (ansiSubAux s.data.length s.data)

/-- The broadcasts of one iteration of the `while` body of
`_read_pty_output`, without cancellation or read errors: the read returns
the chunk when the process is alive and the empty string otherwise; a
non-empty chunk is sanitized and, when the sanitized text is non-empty,
broadcast as a single text output event. An empty read only sleeps. -/
def readIterationActs (alive : Bool) (chunk : String) (t : Nat) : List Act :=
  let output := if alive then chunk else ""
  if output ≠ "" then
    let clean := ansi_escape_sub output
    if clean ≠ "" then
      [Act.broadcast "claude_output"
        (Payload.outputData "text" clean t none)]
    else []
  else []

/-- Embedding of `_read_pty_output` run for at most `fuel` iterations of
its `while` loop, reading from `stream` (iteration index to liveness and
chunk). The loop body never mutates the manager. When the loop condition
fails the post-loop check runs: if the handle is set and the process is
not alive, status is set to stopped and a stopped event is broadcast. The
returned boolean says whether the loop exited (`false` means the fuel ran
out with the loop still running). -/
def read_pty_output : Nat → ClaudeCodeManager → (Nat → Bool × String) →
    Nat → ClaudeCodeManager × List Act × Bool
  | 0, self, _, _ => (self, [], false)
  | fuel + 1, self, stream, i =>
    if self.pty_process.isSome ∧ self.status = ProcessStatus.running then
      let acts := readIterationActs (stream i).1 (stream i).2 i
      let r := read_pty_output fuel self stream (i + 1)
      (r.1, acts ++ r.2.1, r.2.2)
    else
      if self.pty_process.isSome ∧ (stream i).1 = false then
        ({ self with status := ProcessStatus.stopped },
          [Act.broadcast "claude_status" (Payload.statusOnly "stopped")],
          true)
      else (self, [], true)

/-- Trailing-whitespace strip of Python `str.rstrip()` restricted to the
ASCII whitespace characters. -/
def py_rstrip (s : String) : String :=
  String.mk
    (List.reverse (s.data.reverse.dropWhile (fun c =>
      c.toNat = 32 || c.toNat = 9 || c.toNat = 10 ||
      c.toNat = 13 || c.toNat = 11 || c.toNat = 12)))

/-- The broadcasts of `read_stream` inside `_execute_stateless` for one
stream: each line is stripped of trailing whitespace and, when non-empty,
broadcast as an output event of the given type. -/
def readStreamActs (lines : List String) (eventType : String) (t : Nat) :
    List Act :=
  lines.filterMap (fun l =>
    let content := py_rstrip l
    if content = "" then none
    else some (Act.broadcast "claude_output"
      (Payload.outputData eventType content t none)))

/-- An arbitrary interleaving of two action lists, driven by a boolean
schedule (`true` takes from the first list); the tail of the longer list
follows once the schedule or either list is exhausted. This models the
unspecified interleaving of the two concurrent `read_stream` drains. -/
def interleaveActs : List Bool → List Act → List Act → List Act
  | [], xs, ys => xs ++ ys
  | true :: sched, xs, ys =>
    match xs with
    | [] => ys
    | x :: xt => x :: interleaveActs sched xt ys
  | false :: sched, xs, ys =>
    match ys with
    | [] => xs
    | y :: yt => y :: interleaveActs sched xs yt

/-- Embedding of the success path of `_execute_stateless`: both stream
drains run to completion (their events interleaved by `sched`), then the
process is awaited and one complete event carrying the exit code is
broadcast. -/
def execute_stateless (outLines errLines : List String) (sched : List Bool)
    (exitCode : Int) (t : Nat) : List Act :=
  interleaveActs sched (readStreamActs outLines "text" t)
      (readStreamActs errLines "error" t) ++
    [Act.broadcast "claude_output"
      (Payload.outputData "complete" "" t (some exitCode))]

/-- Embedding of `broadcast_sse_event` in sse.py over an abstract
subscriber set, given as a duplicate-free list of client ids with an
iteration order, and a write-success oracle. Returns the list of clients
a write was attempted on (in order) and the subscriber set after the
removal pass. Faithful to the source: an empty set returns at once with
no attempt; otherwise every current client is written to once, failures
are collected, and only after the pass does the removal loop discard each
failed client. -/
def broadcast_sse_event (clients : List Nat) (writeOk : Nat → Bool) :
    List Nat × List Nat :=
  if clients.isEmpty then ([], clients)
  else
    let disconnected := clients.filter (fun c => !(writeOk c))
    (clients, disconnected.foldl List.erase clients)

/-- Recognizer for a broadcast of the stopped status event. -/
def Act.isStoppedStatus : Act → Bool
  | Act.broadcast et (Payload.statusOnly st) =>
      et == "claude_status" && st == "stopped"
  | _ => false

/-- Recognizer for a broadcast of an error status event. -/
def Act.isErrorStatus : Act → Bool
  | Act.broadcast et (Payload.statusMsg st _) =>
      et == "claude_status" && st == "error"
  | _ => false

/-- Recognizer for a complete output event. -/
def Act.isCompleteOutput : Act → Bool
  | Act.broadcast _ (Payload.outputData ty _ _ _) => ty == "complete"
  | _ => false

/-- A manager together with the set of live child processes it has
spawned (as handle ids) and a supply of fresh handles. The `live` list is
bookkeeping for the verification: `start` adds the handle of a successful
winpty spawn, closing the pty on `stop` removes it, and a child dying on
its own removes it. -/
structure SessionWorld where
  mgr : ClaudeCodeManager
  live : List Nat
  next_handle : Nat

/-- One sequential operation on the session, or the environment event
that the pty child terminates on its own. -/
inductive SessionOp where
  | opStartInteractive
  | opStartStateless (ok : Bool)
  | opStartInteractiveFail (msg : String)
  | opStop
  | opSend (cmd : String) (writeOk : Bool)
  | opProcessExit

/-- Run one sequential operation to completion, updating the manager via
the big-step embeddings and the live-process bookkeeping: a successful
interactive start spawns a fresh live child, stop closes (and thereby
terminates) the held pty child, and `opProcessExit` is the pty child
dying on its own. -/
def applyOp (w : SessionWorld) : SessionOp → SessionWorld
  | SessionOp.opStartInteractive =>
    let r := w.mgr.start (StartEnv.interactiveOk w.next_handle w.next_handle) 0
    let spawned := r.2.2.any (fun a =>
      match a with | Act.spawnPty _ => true | _ => false)
    { mgr := r.2.1
      live := if spawned then w.next_handle :: w.live else w.live
      next_handle := w.next_handle + 1 }
  | SessionOp.opStartStateless ok =>
    let env := if ok then StartEnv.statelessOk "1.0"
      else StartEnv.statelessNotFound
    { w with mgr := (w.mgr.start env 0).2.1 }
  | SessionOp.opStartInteractiveFail msg =>
    { w with mgr := (w.mgr.start (StartEnv.interactiveFail msg) 0).2.1 }
  | SessionOp.opStop =>
    { mgr := w.mgr.stop.2.1
      live := match w.mgr.pty_process with
        | some h => w.live.erase h
        | none => w.live
      next_handle := w.next_handle }
  | SessionOp.opSend cmd ok =>
    { w with mgr := (w.mgr.send_command cmd ok).2.1 }
  | SessionOp.opProcessExit =>
    { w with live := match w.mgr.pty_process with
        | some h => w.live.erase h
        | none => w.live }

/-- The world of a freshly constructed manager: no live children. -/
def initial_world (path : String) : SessionWorld :=
  { mgr := initial_manager path, live := [], next_handle := 0 }

/-- Handle invariant: either no live child exists, or exactly one does
and it is the held pty handle of a running session. -/
def HandleInv (w : SessionWorld) : Prop :=
  w.live = [] ∨
    ∃ h, w.live = [h] ∧ w.mgr.pty_process = some h ∧
      w.mgr.status = ProcessStatus.running

/-- Program counter of one in-flight interactive `start` call, cut at its
suspension points: the status check plus the transition to starting is
synchronous; `await broadcast(starting)` suspends; the winpty spawn, the
field updates and the transition to running are synchronous; `await
broadcast(running)` suspends; then the call returns. The broadcast awaits
suspend because the injected broadcast function awaits a network write
per connected subscriber. -/
inductive StartPC where
  | pcCheck
  | pcBcastStarting
  | pcSpawnRun
  | pcBcastRunning
  | pcDone (r : Bool)
deriving DecidableEq, Repr

/-- Shared state of several concurrently in-flight interactive `start`
calls under cooperative scheduling: the shared manager, live-child
bookkeeping as in `SessionWorld`, and one program counter per task. -/
structure InterleavedState where
  mgr : ClaudeCodeManager
  live : List Nat
  next_handle : Nat
  tasks : List StartPC
deriving DecidableEq, Repr

/-- Advance task `i` by one atomic block of the interactive `start`
path. Each block is the code between two suspension points of the
source. -/
def stepTask (st : InterleavedState) (i : Nat) : InterleavedState :=
  match st.tasks.get? i with
  | none => st
  | some pc =>
    match pc with
    | StartPC.pcCheck =>
      if st.mgr.status = ProcessStatus.running then
        { st with tasks := st.tasks.set i (StartPC.pcDone true) }
      else
        { st with
          mgr := { st.mgr with status := ProcessStatus.starting }
          tasks := st.tasks.set i StartPC.pcBcastStarting }
    | StartPC.pcBcastStarting =>
      { st with tasks := st.tasks.set i StartPC.pcSpawnRun }
    | StartPC.pcSpawnRun =>
      let h := st.next_handle
      { mgr := { st.mgr with
          pty_process := some h
          pid := some h
          read_task := true
          started_at := some 0
          status := ProcessStatus.running
          error_message := none }
        live := h :: st.live
        next_handle := h + 1
        tasks := st.tasks.set i StartPC.pcBcastRunning }
    | StartPC.pcBcastRunning =>
      { st with tasks := st.tasks.set i (StartPC.pcDone true) }
    | StartPC.pcDone _ => st

/-- Run a cooperative schedule: at each step the named task advances by
one atomic block. -/
def runSchedule (st : InterleavedState) (sched : List Nat) :
    InterleavedState :=
  sched.foldl stepTask st

/-- Two concurrent interactive `start` calls on a fresh manager. -/
def twoStartsInit : InterleavedState :=
  { mgr := initial_manager "/p"
    live := []
    next_handle := 0
    tasks := [StartPC.pcCheck, StartPC.pcCheck] }

/-- A reachable running interactive session: the state after a successful
interactive `start` on a fresh manager, holding pty handle 7. -/
def sample_running_interactive : ClaudeCodeManager :=
  ((initial_manager "/p").start (StartEnv.interactiveOk 7 7) 0).2.1

/-- A read stream of a process that is no longer alive: every poll
reports not alive, so every read returns the empty string. -/
def dead_stream : Nat → Bool × String := fun _ => (false, "")

/-- Helper: `send_command` never changes the manager state, in any of its
branches. -/
theorem send_command_state_id (m : ClaudeCodeManager) (cmd : String)
    (writeOk : Bool) : (m.send_command cmd writeOk).2.1 = m := by
  unfold ClaudeCodeManager.send_command
  by_cases h : m.status ≠ ProcessStatus.running
  · rw [if_pos h]
  · rw [if_neg h]
    cases m.pty_process <;> rfl

/-- C7: the output sanitizer is a pure function removing terminal escape
sequences; the raw chunk "abc ESC [2K done" sanitizes to "abcdone", the
interactive reader broadcasts it as a single text event, and no escape
byte remains in the result. -/
theorem sanitizer_strips_escape_and_broadcasts_single_text :
    ansi_escape_sub "abc\x1B[2Kdone" = "abcdone" ∧
    readIterationActs true "abc\x1B[2Kdone" 0 =
      [Act.broadcast "claude_output"
        (Payload.outputData "text" "abcdone" 0 none)] ∧
    (ansi_escape_sub "abc\x1B[2Kdone").data.all
      (fun c => c.toNat != 27) = true := by
  refine ⟨by decide, by decide, by decide⟩

/-- C8: calling `start` while already running returns success at once,
with no state change and no action at all: no second spawn and no
broadcast. -/
theorem start_noop_when_running (m : ClaudeCodeManager) (env : StartEnv)
    (now : Nat) (h : m.status = ProcessStatus.running) :
    m.start env now = (true, m, []) := by
  unfold ClaudeCodeManager.start
  rw [if_pos h]

/-- Witness for C8 at a concrete running manager. -/
theorem start_noop_when_running_witness :
    sample_running_interactive.start (StartEnv.interactiveOk 9 9) 5 =
      (true, sample_running_interactive, []) :=
  start_noop_when_running sample_running_interactive
    (StartEnv.interactiveOk 9 9) 5 (by decide)

/-- C2 counterexample: on the freshly constructed manager, whose state is
already Stopped, the first `stop` call broadcasts one stopped event and a
second `stop` call broadcasts another one, so the pair of calls
broadcasts the stopped event twice, not at most once; in particular a
`stop` on an already-Stopped session does emit a duplicate stopped
event. -/
theorem stop_stop_broadcasts_stopped_twice :
    (initial_manager "/p").status = ProcessStatus.stopped ∧
    (((initial_manager "/p").stop.2.1.stop.2.2).filter
      Act.isStoppedStatus).length = 1 ∧
    ((((initial_manager "/p").stop.2.2 ++
        (initial_manager "/p").stop.2.1.stop.2.2).filter
      Act.isStoppedStatus).length = 2) ∧
    ¬((((initial_manager "/p").stop.2.2 ++
        (initial_manager "/p").stop.2.1.stop.2.2).filter
      Act.isStoppedStatus).length ≤ 1) := by
  refine ⟨rfl, by decide, by decide, by decide⟩

/-- C2 amended: calling `stop` when the session is already Stopped (no
pty handle, no read task, pid cleared) returns success and leaves the
state unchanged, but it still broadcasts one stopped event on every call,
so repeated stops emit duplicate stopped events. -/
theorem stop_when_stopped_noop_but_still_broadcasts (m : ClaudeCodeManager)
    (hs : m.status = ProcessStatus.stopped) (hp : m.pid = none)
    (hh : m.pty_process = none) (hr : m.read_task = false) :
    m.stop = (true, m,
      [Act.broadcast "claude_status" (Payload.statusOnly "stopped")]) := by
  cases m with
  | mk pp st pd sa em pty rt =>
    simp only at hs hp hh hr
    subst hs hp hh hr
    rfl

/-- Witness for the amended C2 at the freshly constructed manager. -/
theorem stop_when_stopped_noop_but_still_broadcasts_witness :
    (initial_manager "/p").stop = (true, initial_manager "/p",
      [Act.broadcast "claude_status" (Payload.statusOnly "stopped")]) :=
  stop_when_stopped_noop_but_still_broadcasts (initial_manager "/p")
    rfl rfl rfl rfl

/-- C10: `stop` modifies only the status (to stopped), the pid (to none)
and the process handle and read task; started_at and error_message are
left unchanged, so the status report after a stop carries the previous
started_at and error message; in particular after a failed `start`
followed by `stop`, the report is state stopped with the previous error
message still present. -/
theorem stop_frame_preserves_started_at_and_error (m : ClaudeCodeManager) :
    m.stop.2.1 = { m with
      status := ProcessStatus.stopped
      pid := none
      pty_process := none
      read_task := false } ∧
    (m.stop.2.1).get_status =
      { status := "stopped", pid := none, started_at := m.started_at,
        error_message := m.error_message } ∧
    ((initial_manager "/p").start (StartEnv.interactiveFail "boom")
        0).2.1.stop.2.1.get_status =
      { status := "stopped", pid := none, started_at := none,
        error_message := some "boom" } :=
  ⟨rfl, rfl, by decide⟩

/-- C4: `send_command` while not Running returns failure with no state
change and no broadcast; while Running it broadcasts the command_sent
event as its first action, before the delivery attempt; in interactive
mode the write is the command plus a newline and a failing write is
reported as a failure return value with the session state unchanged; in
stateless mode a one-shot child is scheduled after the broadcast. -/
theorem send_command_gating_and_order (m : ClaudeCodeManager)
    (cmd : String) (writeOk : Bool) :
    (m.status ≠ ProcessStatus.running →
      m.send_command cmd writeOk = (false, m, [])) ∧
    (∀ h, m.status = ProcessStatus.running → m.pty_process = some h →
      m.send_command cmd writeOk = (writeOk, m,
        [Act.broadcast "command_sent" (Payload.commandData cmd),
         Act.ptyWrite (cmd ++ "\n")])) ∧
    (m.status = ProcessStatus.running → m.pty_process = none →
      m.send_command cmd writeOk = (true, m,
        [Act.broadcast "command_sent" (Payload.commandData cmd),
         Act.spawnStatelessChild cmd])) := by
  refine ⟨fun hne => ?_, fun h hr hp => ?_, fun hr hp => ?_⟩
  · unfold ClaudeCodeManager.send_command
    rw [if_pos hne]
  · unfold ClaudeCodeManager.send_command
    rw [if_neg (by simp [hr]), hp]
  · unfold ClaudeCodeManager.send_command
    rw [if_neg (by simp [hr]), hp]

/-- Witness for C4: concrete calls on a stopped manager, on a running
interactive manager with a succeeding and with a failing write, and on a
running stateless manager. -/
theorem send_command_gating_and_order_witness :
    (initial_manager "/p").send_command "hello" true =
      (false, initial_manager "/p", []) ∧
    sample_running_interactive.send_command "hello" true =
      (true, sample_running_interactive,
        [Act.broadcast "command_sent" (Payload.commandData "hello"),
         Act.ptyWrite "hello\n"]) ∧
    sample_running_interactive.send_command "hello" false =
      (false, sample_running_interactive,
        [Act.broadcast "command_sent" (Payload.commandData "hello"),
         Act.ptyWrite "hello\n"]) := by
  refine ⟨(send_command_gating_and_order _ "hello" true).1 (by decide),
    ?_, ?_⟩
  · exact (send_command_gating_and_order sample_running_interactive
      "hello" true).2.1 7 (by decide) (by decide)
  · exact (send_command_gating_and_order sample_running_interactive
      "hello" false).2.1 7 (by decide) (by decide)

/-- C5: a failing `start` (winpty spawn error or missing CLI probe)
returns failure, sets the state to Error, records the error message,
broadcasts exactly one error status event carrying that message, and a
subsequent `get_status` reports state error with the message. -/
theorem start_failure_error_state_and_single_error_event
    (m : ClaudeCodeManager) (env : StartEnv) (now : Nat) (msg : String)
    (hne : m.status ≠ ProcessStatus.running)
    (hf : env.errorResult = some msg) :
    (m.start env now).1 = false ∧
    (m.start env now).2.1.status = ProcessStatus.error ∧
    (m.start env now).2.1.error_message = some msg ∧
    ((m.start env now).2.2.filter Act.isErrorStatus) =
      [Act.broadcast "claude_status" (Payload.statusMsg "error" msg)] ∧
    (m.start env now).2.1.get_status.status = "error" ∧
    (m.start env now).2.1.get_status.error_message = some msg := by
  cases env with
  | interactiveOk pid handle => simp [StartEnv.errorResult] at hf
  | interactiveFail m0 =>
    simp only [StartEnv.errorResult, Option.some.injEq] at hf
    subst hf
    unfold ClaudeCodeManager.start
    rw [if_neg hne]
    refine ⟨rfl, rfl, rfl, ?_, rfl, rfl⟩
    simp [Act.isErrorStatus, List.filter]
  | statelessOk v => simp [StartEnv.errorResult] at hf
  | statelessNotFound =>
    simp only [StartEnv.errorResult, Option.some.injEq] at hf
    subst hf
    unfold ClaudeCodeManager.start
    rw [if_neg hne]
    refine ⟨rfl, rfl, rfl, ?_, rfl, rfl⟩
    simp [Act.isErrorStatus, List.filter]

/-- Witness for C5: a failing spawn on the fresh manager. -/
theorem start_failure_error_state_and_single_error_event_witness :
    (((initial_manager "/p").start (StartEnv.interactiveFail "boom")
        0).2.2.filter Act.isErrorStatus) =
      [Act.broadcast "claude_status" (Payload.statusMsg "error" "boom")] ∧
    ((initial_manager "/p").start (StartEnv.interactiveFail "boom")
        0).2.1.get_status.status = "error" :=
  ⟨(start_failure_error_state_and_single_error_event (initial_manager "/p")
      (StartEnv.interactiveFail "boom") 0 "boom" (by decide) rfl).2.2.2.1,
   (start_failure_error_state_and_single_error_event (initial_manager "/p")
      (StartEnv.interactiveFail "boom") 0 "boom" (by decide) rfl).2.2.2.2.1⟩

/-- C1: broadcast fan-out. On the empty subscriber set the call returns
at once with no write attempt and no retained event. On a set of size N
(given with its iteration order, duplicate-free as a set is) every
current subscriber is written to exactly once, so there are exactly N
attempts, at most one per subscriber and no retry; all removals happen
after the pass, and the surviving set is exactly the subset whose write
succeeded, of size N minus the number of failed writes. -/
theorem broadcast_fanout_exact (clients : List Nat) (writeOk : Nat → Bool)
    (hnd : clients.Nodup) :
    broadcast_sse_event clients writeOk =
      (clients, clients.filter (fun c => writeOk c)) ∧
    (clients = [] → broadcast_sse_event clients writeOk = ([], [])) ∧
    (broadcast_sse_event clients writeOk).1.length = clients.length ∧
    (∀ c, (broadcast_sse_event clients writeOk).1.count c ≤ 1) ∧
    (broadcast_sse_event clients writeOk).2.length =
      clients.length -
        (clients.filter (fun c => !(writeOk c))).length := by
  have hmain : broadcast_sse_event clients writeOk =
      (clients, clients.filter (fun c => writeOk c)) := by
    unfold broadcast_sse_event
    by_cases h : clients.isEmpty
    · rw [if_pos h]
      rw [List.isEmpty_iff] at h
      subst h
      rfl
    · rw [if_neg h]
      show (clients, (clients.filter (fun c => !(writeOk c))).foldl
          List.erase clients) = _
      have hfold : (clients.filter (fun c => !(writeOk c))).foldl
          List.erase clients =
          clients.diff (clients.filter (fun c => !(writeOk c))) :=
        (List.diff_eq_foldl _ _).symm
      rw [hfold, hnd.diff_eq_filter]
      congr 1
      apply List.filter_congr
      intro c hc
      by_cases hw : writeOk c
      · simp [List.mem_filter, hw, hc]
      · simp [List.mem_filter, hw, hc]
  refine ⟨hmain, ?_, ?_, ?_, ?_⟩
  · intro h
    subst h
    rfl
  · rw [hmain]
  · intro c
    rw [hmain]
    exact List.nodup_iff_count_le_one.1 hnd c
  · rw [hmain]
    show (clients.filter (fun c => writeOk c)).length = _
    have hsplit := List.length_eq_length_filter_add
      (l := clients) (fun c => writeOk c)
    omega

/-- Witness for C1: three subscribers with the middle write failing. -/
theorem broadcast_fanout_exact_witness :
    ([0, 1, 2] : List Nat).Nodup ∧
    broadcast_sse_event [0, 1, 2] (fun c => c != 1) =
      ([0, 1, 2], [0, 2]) := by
  refine ⟨by decide, ?_⟩
  rw [(broadcast_fanout_exact [0, 1, 2] (fun c => c != 1) (by decide)).1]
  decide

/-- Helper: an interleaving of two lists that a filter rejects entirely
is itself rejected entirely. -/
theorem interleaveActs_filter_nil (p : Act → Bool) :
    ∀ (sched : List Bool) (xs ys : List Act),
      xs.filter p = [] → ys.filter p = [] →
      (interleaveActs sched xs ys).filter p = [] := by
  intro sched
  induction sched with
  | nil =>
    intro xs ys hx hy
    simp [interleaveActs, List.filter_append, hx, hy]
  | cons b sb ih =>
    intro xs ys hx hy
    cases b with
    | true =>
      cases xs with
      | nil => simpa [interleaveActs] using hy
      | cons x xt =>
        rw [List.filter_cons] at hx
        by_cases hp : p x
        · simp [hp] at hx
        · simp only [hp] at hx
          simp only [interleaveActs, List.filter_cons, hp]
          simp only [Bool.false_eq_true, if_neg]
          exact ih xt ys (by simpa using hx) hy
    | false =>
      cases ys with
      | nil => simpa [interleaveActs] using hx
      | cons y yt =>
        rw [List.filter_cons] at hy
        by_cases hp : p y
        · simp [hp] at hy
        · simp only [hp] at hy
          simp only [interleaveActs, List.filter_cons, hp]
          simp only [Bool.false_eq_true, if_neg]
          exact ih xs yt hx (by simpa using hy)

/-- Helper: the per-line events of one stream drain contain no complete
event when the stream's event type is not "complete". -/
theorem readStreamActs_filter_complete (lines : List String) (ty : String)
    (t : Nat) (h : (ty == "complete") = false) :
    (readStreamActs lines ty t).filter Act.isCompleteOutput = [] := by
  induction lines with
  | nil => rfl
  | cons l tl ih =>
    by_cases hc : py_rstrip l = ""
    · simpa [readStreamActs, List.filterMap_cons, hc] using ih
    · simpa [readStreamActs, List.filterMap_cons, hc, List.filter_cons,
        Act.isCompleteOutput, h] using ih

/-- C6: a stateless one-shot execution whose child exits with code c
broadcasts exactly one complete event, it carries exit code c, and it is
the last broadcast of the execution, after every text event derived from
stdout lines and every error event derived from stderr lines, for every
interleaving of the two drains. -/
theorem stateless_single_complete_event_after_drains
    (outLines errLines : List String) (sched : List Bool) (exitCode : Int)
    (t : Nat) :
    (execute_stateless outLines errLines sched exitCode t).filter
        Act.isCompleteOutput =
      [Act.broadcast "claude_output"
        (Payload.outputData "complete" "" t (some exitCode))] ∧
    (execute_stateless outLines errLines sched exitCode t).getLast? =
      some (Act.broadcast "claude_output"
        (Payload.outputData "complete" "" t (some exitCode))) := by
  constructor
  · unfold execute_stateless
    rw [List.filter_append]
    rw [interleaveActs_filter_nil Act.isCompleteOutput sched _ _
      (readStreamActs_filter_complete outLines "text" t (by decide))
      (readStreamActs_filter_complete errLines "error" t (by decide))]
    rfl
  · exact List.getLast?_concat _

/-- C3: evaluation at the failing input. After the supervised process
dies while the session is Running, the read loop of `_read_pty_output`
never exits: its condition checks only the handle and the Running status,
never process liveness, and a dead process only yields empty reads and
sleeps. For any number of loop iterations the manager still has status
Running, nothing is broadcast, and the loop has not exited, so the
post-loop transition to Stopped and the stopped broadcast are never
reached by process death alone. -/
theorem read_loop_never_exits_on_process_death :
    ∀ (fuel i : Nat),
      read_pty_output fuel sample_running_interactive dead_stream i =
        (sample_running_interactive, [], false) := by
  intro fuel
  induction fuel with
  | zero => intro i; rfl
  | succ n ih =>
    intro i
    unfold read_pty_output
    rw [if_pos (by exact ⟨by decide, by decide⟩)]
    rw [ih (i + 1)]
    rfl

/-- Helper: every sequential operation preserves the handle invariant. -/
theorem applyOp_preserves_HandleInv (w : SessionWorld) (op : SessionOp)
    (h : HandleInv w) : HandleInv (applyOp w op) := by
  have hlive_of_not_running :
      w.mgr.status ≠ ProcessStatus.running → w.live = [] := by
    intro hr
    rcases h with h0 | ⟨h0, _, _, hs⟩
    · exact h0
    · exact absurd hs hr
  cases op with
  | opStartInteractive =>
    by_cases hr : w.mgr.status = ProcessStatus.running
    · unfold HandleInv at h ⊢
      simpa [applyOp, ClaudeCodeManager.start, hr] using h
    · have hlive := hlive_of_not_running hr
      right
      refine ⟨w.next_handle, ?_, ?_, ?_⟩ <;>
        simp [applyOp, ClaudeCodeManager.start, hr, hlive]
  | opStartStateless ok =>
    by_cases hr : w.mgr.status = ProcessStatus.running
    · unfold HandleInv at h ⊢
      simpa [applyOp, ClaudeCodeManager.start, hr] using h
    · left
      have hlive := hlive_of_not_running hr
      simpa [applyOp] using hlive
  | opStartInteractiveFail msg =>
    by_cases hr : w.mgr.status = ProcessStatus.running
    · unfold HandleInv at h ⊢
      simpa [applyOp, ClaudeCodeManager.start, hr] using h
    · left
      have hlive := hlive_of_not_running hr
      simpa [applyOp] using hlive
  | opStop =>
    left
    rcases h with h0 | ⟨h0, hl, hp, _⟩
    · cases hpty : w.mgr.pty_process <;> simp [applyOp, hpty, h0]
    · simp [applyOp, hp, hl]
  | opSend cmd ok =>
    unfold HandleInv at h ⊢
    simpa [applyOp, send_command_state_id] using h
  | opProcessExit =>
    left
    rcases h with h0 | ⟨h0, hl, hp, _⟩
    · cases hpty : w.mgr.pty_process <;> simp [applyOp, hpty, h0]
    · simp [applyOp, hp, hl]

/-- C9 amended: under sequential execution, where each operation (start,
stop, send command) and each process-exit environment event runs to
completion before the next begins, the session holds at most one live
child process handle at every point of every operation sequence. -/
theorem sequential_at_most_one_live_child (ops : List SessionOp) :
    ((ops.foldl applyOp (initial_world "/p")).live).length ≤ 1 := by
  have hinv : ∀ (l : List SessionOp) (w : SessionWorld), HandleInv w →
      HandleInv (l.foldl applyOp w) := by
    intro l
    induction l with
    | nil => intro w h; exact h
    | cons op tl ih =>
      intro w h
      exact ih _ (applyOp_preserves_HandleInv w op h)
  rcases hinv ops (initial_world "/p") (Or.inl rfl) with h0 | ⟨h0, hl, _, _⟩
  · simp [h0]
  · simp [hl]

/-- C9 counterexample: under the cooperative scheduling model, two
concurrent interactive `start` calls on a fresh manager can interleave at
the suspension point of the starting broadcast so that both pass the
idempotence check before either spawns; both then spawn, the second
assignment to the handle field silently replaces the first live handle,
and afterwards the session has two live child processes while holding
only the second handle — refuting the claim that at most one active child
process handle exists at any point in every interleaving. -/
theorem interleaved_two_starts_two_live_children :
    (runSchedule twoStartsInit [0, 0, 1, 1, 1, 1, 0, 0]).live = [1, 0] ∧
    ¬((runSchedule twoStartsInit [0, 0, 1, 1, 1, 1, 0, 0]).live.length
        ≤ 1) ∧
    (runSchedule twoStartsInit
        [0, 0, 1, 1, 1, 1, 0, 0]).mgr.pty_process = some 1 ∧
    (runSchedule twoStartsInit [0, 0, 1, 1, 1, 1, 0, 0]).tasks =
      [StartPC.pcDone true, StartPC.pcDone true] := by
  refine ⟨by decide, by decide, by decide, by decide⟩
